import Mathlib

/-!
# Verification of the psychmem selective-memory core

A shallow embedding, in Lean 4, of the selective-memory engine of the
psychmem repository: feature-based strength scoring, STM→LTM
consolidation, reconsolidation against new evidence, and the progressive
retrieval ranker.  JavaScript numbers are embedded as rationals (`ℚ`);
`Math.log` is an abstract parameter `jsLog : ℚ → ℚ` (its value never
decides any of the properties proved here); the SQLite-backed
`MemoryDatabase` — whose implementation sits below the store contract —
is modelled from the spec's store contract as a list of memory units
plus an id counter.
-/

namespace PsychMem

/-! ## Data model (spec §3) -/

/-- `store` field: short-term or long-term. -/
inductive Store where
  | stm
  | ltm
deriving DecidableEq

/-- The eight memory classifications. -/
inductive Classification where
  | bugfix
  | learning
  | decision
  | preference
  | constraint
  | procedural
  | semantic
  | episodic
deriving DecidableEq

/-- Render a classification the way the TS code uses it as a string tag. -/
def Classification.str : Classification → String
  | .bugfix => "bugfix"
  | .learning => "learning"
  | .decision => "decision"
  | .preference => "preference"
  | .constraint => "constraint"
  | .procedural => "procedural"
  | .semantic => "semantic"
  | .episodic => "episodic"

/-- `status` field of a memory unit. -/
inductive Status where
  | active
  | pinned
  | decayed
  | forgotten
deriving DecidableEq

/-- A persistent memory unit (spec §3).  Timestamps are rational
milliseconds since the epoch. -/
structure MemoryUnit where
  id : Nat
  store : Store
  classification : Classification
  summary : String
  status : Status
  strength : ℚ
  importance : ℚ
  utility : ℚ
  novelty : ℚ
  confidence : ℚ
  interference : ℚ
  frequency : Nat
  tags : List String
  projectScope : Option String
  sourceEventIds : List String
  createdAt : ℚ
deriving DecidableEq

/-- An importance signal attached to a candidate. -/
structure ImportanceSignal where
  type : String
  evidence : String
deriving DecidableEq

/-- An ephemeral memory candidate supplied by the extractor (spec §3). -/
structure MemoryCandidate where
  classification : Classification
  summary : String
  sourceEventIds : List String
  preliminaryImportance : ℚ
  confidence : ℚ
  importanceSignals : List ImportanceSignal
deriving DecidableEq

/-- The seven-feature vector feeding the strength formula. -/
structure MemoryFeatureVector where
  recency : ℚ
  frequency : ℚ
  importance : ℚ
  utility : ℚ
  novelty : ℚ
  confidence : ℚ
  interference : ℚ
deriving DecidableEq

/-- The seven scoring weights. -/
structure ScoringWeights where
  recency : ℚ
  frequency : ℚ
  importance : ℚ
  utility : ℚ
  novelty : ℚ
  confidence : ℚ
  interference : ℚ
deriving DecidableEq

/-- The configuration slice consumed by the core (spec §6). -/
structure PsychMemConfig where
  scoringWeights : ScoringWeights
  autoPromoteToLtm : List Classification
  stmToLtmStrengthThreshold : ℚ
  stmToLtmFrequencyThreshold : ℚ
  defaultRetrievalLimit : Nat
deriving DecidableEq

/-- Modelled from the spec: `isUserLevelClassification` lives in the
repository's `types/index.ts`, which is not among the provided sources;
spec §3 fixes the user-level set as
{constraint, preference, learning, procedural}. -/
def isUserLevelClassification (c : Classification) : Bool :=
  c = .constraint ∨ c = .preference ∨ c = .learning ∨ c = .procedural

/-! ## String machinery

JavaScript's `s.toLowerCase().split(/\s+/)` and `String.prototype.includes`,
embedded over `List Char`.  `jsSplitWs` reproduces `split(/\s+/)` exactly:
maximal whitespace runs separate tokens, and a leading or trailing run
contributes an empty token, as the JS regex split does. -/

/-- The characters the JS `\s` class matches, restricted to ASCII. -/
def isWs (c : Char) : Bool :=
  c = ' ' ∨ c = '\t' ∨ c = '\n' ∨ c = '\r'

/-- Worker for `jsSplitWs`: `cur` holds the current token reversed,
`lastWs` records whether the previous character was whitespace. -/
def jsSplitWsGo : List Char → List Char → Bool → List String
  | [], cur, _ => [String.mk cur.reverse]
  | c :: rest, cur, lastWs =>
    if isWs c then
      if lastWs then jsSplitWsGo rest [] true
      else String.mk cur.reverse :: jsSplitWsGo rest [] true
    else jsSplitWsGo rest (c :: cur) false

/-- JS `s.split(/\s+/)`. -/
def jsSplitWs (s : String) : List String :=
  jsSplitWsGo s.data [] false

/-- JS `s.toLowerCase()` (ASCII case folding). -/
def jsLower (s : String) : String :=
  String.mk (s.data.map Char.toLower)

/-- `needle` occurs at the start of `hay`. -/
def beginsWith : List Char → List Char → Bool
  | [], _ => true
  | _ :: _, [] => false
  | a :: as, b :: bs => a == b && beginsWith as bs

/-- JS `hay.includes(needle)`: contiguous substring test. -/
def containsSeg : List Char → List Char → Bool
  | hay, needle =>
    beginsWith needle hay ||
      match hay with
      | [] => false
      | _ :: rest => containsSeg rest needle

/-- JS `a.includes(b)` on strings. -/
def strContains (hay needle : String) : Bool :=
  containsSeg hay.data needle.data

/-- Size of the set intersection of two deduplicated word lists
(`new Set([...A].filter(x => B.has(x))).size`). -/
def interSize (A B : List String) : Nat :=
  (A.filter (fun w => w ∈ B)).length

/-- Size of the set union of two deduplicated word lists
(`new Set([...A, ...B]).size`). -/
def unionSize (A B : List String) : Nat :=
  ((A ++ B).dedup).length

/-! ## Modelled store (spec §4.3)

Modelled from the spec: the SQLite `MemoryDatabase` below the store
contract is not among the provided sources.  The model is a list of
units plus a fresh-id counter; `createMemory` assigns the id, status
`active`, frequency 1, the creation time, and an initial strength
(`defaultStrength`) that the caller does not supply. -/

/-- Modelled from the spec: the state of the `MemoryStore` contract. -/
structure Db where
  mems : List MemoryUnit
  nextId : Nat
  defaultStrength : ℚ
  now : ℚ
deriving DecidableEq

/-- Extra fields supplied to `createMemory`. -/
structure CreateExtras where
  projectScope : Option String
  importance : ℚ
  utility : ℚ
  novelty : ℚ
  confidence : ℚ
  tags : List String

/-- Modelled from the spec: `MemoryStore.createMemory` — persists a new
unit and returns it. -/
def createMemory (db : Db) (store : Store) (cls : Classification)
    (summary : String) (sourceEventIds : List String) (extras : CreateExtras) :
    MemoryUnit × Db :=
  let m : MemoryUnit :=
    { id := db.nextId
      store := store
      classification := cls
      summary := summary
      status := .active
      strength := db.defaultStrength
      importance := extras.importance
      utility := extras.utility
      novelty := extras.novelty
      confidence := extras.confidence
      interference := 0
      frequency := 1
      tags := extras.tags
      projectScope := extras.projectScope
      sourceEventIds := sourceEventIds
      createdAt := db.now }
  (m, { db with mems := db.mems ++ [m], nextId := db.nextId + 1 })

/-- Modelled from the spec: `MemoryStore.getMemory(id)`. -/
def getMemory (db : Db) (id : Nat) : Option MemoryUnit :=
  db.mems.find? (fun m => m.id == id)

/-- Modelled from the spec: `MemoryStore.updateMemoryStrength(id, s)`. -/
def updateMemoryStrength (db : Db) (id : Nat) (s : ℚ) : Db :=
  { db with mems := db.mems.map (fun m => if m.id = id then { m with strength := s } else m) }

/-- Modelled from the spec: `MemoryStore.updateMemoryStatus(id, st)`. -/
def updateMemoryStatus (db : Db) (id : Nat) (st : Status) : Db :=
  { db with mems := db.mems.map (fun m => if m.id = id then { m with status := st } else m) }

/-- Modelled from the spec: `MemoryStore.promoteToLtm(id)` — moves the
unit to the long-term store. -/
def promoteToLtm (db : Db) (id : Nat) : Db :=
  { db with mems := db.mems.map (fun m => if m.id = id then { m with store := .ltm } else m) }

/-- Modelled from the spec: `MemoryStore.incrementFrequency(id)`. -/
def incrementFrequency (db : Db) (id : Nat) : Db :=
  { db with mems := db.mems.map (fun m => if m.id = id then { m with frequency := m.frequency + 1 } else m) }

/-- Modelled from the spec: `MemoryStore.getMemoriesByStore(store)`. -/
def getMemoriesByStore (db : Db) (st : Store) : List MemoryUnit :=
  db.mems.filter (fun m => m.store = st)

/-- Stable insertion of `x` into a list sorted descending by `key`:
`x` goes before the first element whose key is not larger. -/
def insertByDesc (key : α → ℚ) (x : α) : List α → List α
  | [] => [x]
  | y :: ys => if key y > key x then y :: insertByDesc key x ys else x :: y :: ys

/-- Stable sort, descending by `key` (equal keys keep their original
order, as JS `Array.prototype.sort` guarantees). -/
def sortByDesc (key : α → ℚ) : List α → List α
  | [] => []
  | x :: xs => insertByDesc key x (sortByDesc key xs)

/-- Modelled from the spec: `MemoryStore.getTopMemories(limit)` —
strength-descending, active and pinned units only. -/
def getTopMemories (db : Db) (limit : Nat) : List MemoryUnit :=
  (sortByDesc (·.strength)
    (db.mems.filter (fun m => m.status = .active ∨ m.status = .pinned))).take limit

/-! ## SelectiveMemory (src/memory/selective-memory.ts)

`jsLog : ℚ → ℚ` stands for `Math.log`; every property proved below holds
for an arbitrary logarithm function, so nothing depends on its value. -/

/-- `SelectiveMemory.calculateTextSimilarity`: Jaccard index over the
case-folded, whitespace-tokenized word sets of the two strings.  Note:
unlike the retrieval layer's `jaccardSimilarity`, no short words are
excluded and there is no empty-set guard (the token sets are never
empty, since JS `split` yields `[""]` on an all-whitespace string). -/
def calculateTextSimilarity (a b : String) : ℚ :=
  let wordsA := (jsSplitWs (jsLower a)).dedup
  let wordsB := (jsSplitWs (jsLower b)).dedup
  (interSize wordsA wordsB : ℚ) / (unionSize wordsA wordsB : ℚ)

/-- `SelectiveMemory.calculateNovelty`: 1 minus the maximum similarity
to the top-50 existing memories; 1 on an empty corpus. -/
def calculateNovelty (db : Db) (candidate : MemoryCandidate) : ℚ :=
  let existingMemories := getTopMemories db 50
  if existingMemories.length = 0 then 1
  else
    let maxSimilarity := existingMemories.foldl
      (fun acc mem => max acc (calculateTextSimilarity candidate.summary mem.summary)) 0
    1 - maxSimilarity

/-- `SelectiveMemory.detectInterference`: accumulates
`max(interference, similarity·0.5)` over top-50 memories whose
similarity lies strictly between 0.3 and 0.8. -/
def detectInterference (db : Db) (candidate : MemoryCandidate) : ℚ :=
  let existingMemories := getTopMemories db 50
  existingMemories.foldl
    (fun interference mem =>
      let topicSimilarity := calculateTextSimilarity candidate.summary mem.summary
      if topicSimilarity > 3/10 ∧ topicSimilarity < 8/10 then
        max interference (topicSimilarity * (1/2))
      else interference) 0

/-- `SelectiveMemory.calculateFeatures`: the intake feature vector
(recency 0, frequency 1, utility 0.5, interference 0). -/
def calculateFeatures (db : Db) (candidate : MemoryCandidate) : MemoryFeatureVector :=
  { recency := 0
    frequency := 1
    importance := candidate.preliminaryImportance
    utility := 1/2
    novelty := calculateNovelty db candidate
    confidence := candidate.confidence
    interference := 0 }

/-- `SelectiveMemory.calculateStrength`: weighted sum of the seven
features, with log-saturated frequency and linear recency, clamped to
[0,1]. -/
def calculateStrength (jsLog : ℚ → ℚ) (w : ScoringWeights) (features : MemoryFeatureVector) : ℚ :=
  let normalizedFrequency := min 1 (jsLog (features.frequency + 1) / jsLog 10)
  let recencyFactor := 1 - min 1 (features.recency / 168)
  let strength :=
    w.recency * recencyFactor +
    w.frequency * normalizedFrequency +
    w.importance * features.importance +
    w.utility * features.utility +
    w.novelty * features.novelty +
    w.confidence * features.confidence +
    w.interference * features.interference
  max 0 (min 1 strength)

/-- `SelectiveMemory.extractTags`: the classification plus the distinct
signal types. -/
def extractTags (candidate : MemoryCandidate) : List String :=
  candidate.importanceSignals.foldl
    (fun tags signal => if signal.type ∈ tags then tags else tags ++ [signal.type])
    [candidate.classification.str]

/-- The `createMemory` call of one iteration of the
`processCandidates` loop: store allocation, scope resolution and
persistence of one candidate. -/
def intakeCreate (cfg : PsychMemConfig) (projectScope : Option String)
    (db : Db) (candidate : MemoryCandidate) : MemoryUnit × Db :=
  let shouldAutoPromote := candidate.classification ∈ cfg.autoPromoteToLtm
  let store : Store := if shouldAutoPromote then .ltm else .stm
  let features := calculateFeatures db candidate
  let memoryProjectScope :=
    if isUserLevelClassification candidate.classification then none else projectScope
  createMemory db store candidate.classification candidate.summary
    candidate.sourceEventIds
    { projectScope := memoryProjectScope
      importance := candidate.preliminaryImportance
      utility := 1/2
      novelty := features.novelty
      confidence := candidate.confidence
      tags := extractTags candidate }

/-- One full iteration of the `processCandidates` loop: compute the
intake strength and interference, persist the candidate, then dampen
the stored strength when interference was detected.  Returns the unit
`createMemory` returned (the loop pushes this, not the dampened row)
and the resulting store. -/
def intakeStep (jsLog : ℚ → ℚ) (cfg : PsychMemConfig)
    (projectScope : Option String) (db : Db) (candidate : MemoryCandidate) :
    MemoryUnit × Db :=
  let strength := calculateStrength jsLog cfg.scoringWeights (calculateFeatures db candidate)
  let interference := detectInterference db candidate
  let created := intakeCreate cfg projectScope db candidate
  let memory := created.1
  let db1 := created.2
  let db2 :=
    if interference > 0 then
      updateMemoryStrength db1 memory.id (strength * (1 - interference * (2/10)))
    else db1
  (memory, db2)

/-- `SelectiveMemory.processCandidates`: score, allocate and persist
each candidate in order via `intakeStep`.  Returns the created units
(as returned by `createMemory`, before any dampening) and the final
store state. -/
def processCandidates (jsLog : ℚ → ℚ) (cfg : PsychMemConfig)
    (projectScope : Option String) (db : Db) :
    List MemoryCandidate → List MemoryUnit × Db
  | [] => ([], db)
  | candidate :: rest =>
    let step := intakeStep jsLog cfg projectScope db candidate
    let restResult := processCandidates jsLog cfg projectScope step.2 rest
    (step.1 :: restResult.1, restResult.2)

/-- The result record of `runConsolidation`. -/
structure ConsolidationResult where
  promoted : List Nat
  decayed : List Nat
  unchanged : List Nat
deriving DecidableEq

/-- `SelectiveMemory.shouldPromoteToLtm`: auto-promote classification,
strength threshold, or frequency threshold. -/
def shouldPromoteToLtm (cfg : PsychMemConfig) (memory : MemoryUnit) : Bool :=
  if memory.classification ∈ cfg.autoPromoteToLtm then true
  else if memory.strength ≥ cfg.stmToLtmStrengthThreshold then true
  else if (memory.frequency : ℚ) ≥ cfg.stmToLtmFrequencyThreshold then true
  else false

/-- One iteration of the `runConsolidation` loop. -/
def consolidateStep (cfg : PsychMemConfig) (acc : ConsolidationResult × Db)
    (mem : MemoryUnit) : ConsolidationResult × Db :=
  if shouldPromoteToLtm cfg mem then
    ({ acc.1 with promoted := acc.1.promoted ++ [mem.id] }, promoteToLtm acc.2 mem.id)
  else if mem.strength < 1/10 then
    ({ acc.1 with decayed := acc.1.decayed ++ [mem.id] }, updateMemoryStatus acc.2 mem.id .decayed)
  else
    ({ acc.1 with unchanged := acc.1.unchanged ++ [mem.id] }, acc.2)

/-- `SelectiveMemory.runConsolidation`: scan the stm units once,
promoting, marking decayed, or leaving each unchanged. -/
def runConsolidation (cfg : PsychMemConfig) (db : Db) : ConsolidationResult × Db :=
  (getMemoriesByStore db .stm).foldl (consolidateStep cfg) (⟨[], [], []⟩, db)

/-- The result record of `reconsolidate`. -/
structure ReconsolidationResult where
  success : Bool
  updated : Option Bool := none
  oldConfidence : Option ℚ := none
  newConfidence : Option ℚ := none
  conflict : Option Bool := none
  reinforced : Option Bool := none
  reason : Option String := none
deriving DecidableEq

/-- `SelectiveMemory.reconsolidate`: update an existing memory against
new evidence.  As in the source, the conflict branch computes
`newConfidence` and `updatedSummary` but issues no store write — the
local `updatedSummary` is dead and the returned record is the only
effect; the reinforcement branch increments the stored frequency but
likewise never persists the new confidence. -/
def reconsolidate (db : Db) (memoryId : Nat)
    (content : String) (evidenceConfidence : ℚ) :
    ReconsolidationResult × Db :=
  match getMemory db memoryId with
  | none => ({ success := false, reason := some "Memory not found" }, db)
  | some memory =>
    if memory.status = .pinned then
      ({ success := false, reason := some "Memory is pinned and cannot be reconsolidated" }, db)
    else
      let similarity := calculateTextSimilarity content memory.summary
      if similarity < 3/10 then
        let newConfidence := (memory.confidence + evidenceConfidence) / 2 * (8/10)
        let _updatedSummary := memory.summary ++ " [Updated: " ++ content ++ "]"
        ({ success := true
           updated := some true
           oldConfidence := some memory.confidence
           newConfidence := some newConfidence
           conflict := some true }, db)
      else if similarity > 7/10 then
        let newConfidence := min 1 (memory.confidence + evidenceConfidence * (1/10))
        ({ success := true
           updated := some true
           oldConfidence := some memory.confidence
           newConfidence := some newConfidence
           conflict := some false
           reinforced := some true }, incrementFrequency db memoryId)
      else
        ({ success := true
           updated := some false
           reason := some "No significant update needed" }, db)

/-- The clamped utility value `updateUtility` computes
(`Math.max(0, Math.min(1, utility + delta))`). -/
def updatedUtilityValue (utility : ℚ) (wasUsed : Bool) : ℚ :=
  let delta : ℚ := if wasUsed then 1/10 else -(1/20)
  max 0 (min 1 (utility + delta))

/-- `SelectiveMemory.calculateRecency`: hours elapsed since creation. -/
def calculateRecency (now createdAt : ℚ) : ℚ :=
  (now - createdAt) / (1000 * 60 * 60)

/-- `SelectiveMemory.updateUtility`: recompute utility from usage and
write the strength recomputed from the unit's current features (the
clamped utility itself feeds the strength but is not written back). -/
def updateUtility (jsLog : ℚ → ℚ) (cfg : PsychMemConfig) (db : Db)
    (memoryId : Nat) (wasUsed : Bool) : Db :=
  match getMemory db memoryId with
  | none => db
  | some memory =>
    let newUtility := updatedUtilityValue memory.utility wasUsed
    let features : MemoryFeatureVector :=
      { recency := calculateRecency db.now memory.createdAt
        frequency := (memory.frequency : ℚ)
        importance := memory.importance
        utility := newUtility
        novelty := memory.novelty
        confidence := memory.confidence
        interference := memory.interference }
    let newStrength := calculateStrength jsLog cfg.scoringWeights features
    updateMemoryStrength db memoryId newStrength

/-! ## MemoryRetrieval (the retrieval layer source file) -/

/-- Optional retrieval filters. -/
structure RetrievalFilters where
  store : Option Store := none
  classifications : Option (List Classification) := none
  minStrength : Option ℚ := none
  tags : Option (List String) := none
  since : Option ℚ := none

/-- A retrieval query. -/
structure RetrievalQuery where
  query : Option String := none
  filters : Option RetrievalFilters := none
  limit : Option Nat := none

/-- A lightweight index item. -/
structure RetrievalIndexItem where
  id : Nat
  summary : String
  classification : Classification
  store : Store
  strength : ℚ
  estimatedTokens : Nat
  relevanceScore : ℚ
deriving DecidableEq

/-- `MemoryRetrieval.jaccardSimilarity`: word-level Jaccard over words
of length > 2, with a zero guard when either word set is empty. -/
def jaccardSimilarity (a b : String) : ℚ :=
  let wordsA := ((jsSplitWs a).filter (fun w => w.length > 2)).dedup
  let wordsB := ((jsSplitWs b).filter (fun w => w.length > 2)).dedup
  if wordsA.length = 0 ∨ wordsB.length = 0 then 0
  else (interSize wordsA wordsB : ℚ) / (unionSize wordsA wordsB : ℚ)

/-- The local `score` computed by `MemoryRetrieval.calculateRelevance`
before the final `Math.min(1, score)`. -/
def relevanceScoreRaw (memory : MemoryUnit) (query : String) (now : ℚ) : ℚ :=
  let queryLower := jsLower query
  let summaryLower := jsLower memory.summary
  let jaccard := jaccardSimilarity summaryLower queryLower
  let queryKeywords := (jsSplitWs queryLower).filter (fun w => w.length > 2)
  let keywordHits := (queryKeywords.filter (fun kw => strContains summaryLower kw)).length
  let keywordScore : ℚ :=
    if queryKeywords.length > 0 then (keywordHits : ℚ) / (queryKeywords.length : ℚ) else 0
  let tagMatches := (memory.tags.filter
    (fun tag => queryKeywords.any (fun term => strContains (jsLower tag) term))).length
  let tagScore : ℚ := (tagMatches : ℚ) * (15/100)
  let textSimilarity := jaccard * (1/2) + keywordScore * (1/2)
  let ageHours := (now - memory.createdAt) / (1000 * 60 * 60)
  let recencyBonus := max 0 (5/100 - ageHours / 2000)
  textSimilarity * 2 * (1/2 + memory.strength * (1/2)) + tagScore + recencyBonus

/-- `MemoryRetrieval.calculateRelevance`: query-similarity-first scoring;
`now` is the JS `Date.now()` in milliseconds. -/
def calculateRelevance (memory : MemoryUnit) (query : String) (now : ℚ) : ℚ :=
  min 1 (relevanceScoreRaw memory query now)

/-- `MemoryRetrieval.rankByTextSimilarity`: score each memory and sort
descending (JS sort is stable). -/
def rankByTextSimilarity (memories : List MemoryUnit) (query : String) (now : ℚ) :
    List MemoryUnit :=
  (sortByDesc (fun p => p.2)
    (memories.map (fun mem => (mem, calculateRelevance mem query now)))).map (·.1)

/-- `MemoryRetrieval.getFilteredMemories`. -/
def getFilteredMemories (db : Db) (filters : Option RetrievalFilters) (limit : Nat) :
    List MemoryUnit :=
  match filters with
  | none => getTopMemories db limit
  | some f =>
    let memories := getTopMemories db limit
    let memories := match f.store with
      | some st => memories.filter (fun m => m.store = st)
      | none => memories
    let memories := match f.classifications with
      | some cls => if cls.length > 0 then memories.filter (fun m => m.classification ∈ cls) else memories
      | none => memories
    let memories := match f.minStrength with
      | some ms => memories.filter (fun m => m.strength ≥ ms)
      | none => memories
    let memories := match f.tags with
      | some ts => if ts.length > 0 then memories.filter (fun m => ts.any (fun t => t ∈ m.tags)) else memories
      | none => memories
    let memories := match f.since with
      | some since => memories.filter (fun m => m.createdAt ≥ since)
      | none => memories
    memories

/-- `MemoryRetrieval.estimateTokens`: `Math.ceil(text.length / 4)`. -/
def estimateTokens (text : String) : Nat :=
  (text.length + 3) / 4

/-- `MemoryRetrieval.toIndexItem`. -/
def toIndexItem (memory : MemoryUnit) (query : Option String) (now : ℚ) :
    RetrievalIndexItem :=
  { id := memory.id
    summary := memory.summary
    classification := memory.classification
    store := memory.store
    strength := memory.strength
    estimatedTokens := estimateTokens memory.summary
    relevanceScore := match query with
      | some q => calculateRelevance memory q now
      | none => memory.strength }

/-- `MemoryRetrieval.retrieveIndex`: over-fetch a pool, rank by text
similarity when a query is present, truncate to the limit. -/
def retrieveIndex (cfg : PsychMemConfig) (db : Db) (q : RetrievalQuery) (now : ℚ) :
    List RetrievalIndexItem :=
  let limit := q.limit.getD cfg.defaultRetrievalLimit
  let poolSize := min 200 (max 50 (limit * 10))
  let memories := getFilteredMemories db q.filters poolSize
  let memories := match q.query with
    | some text => rankByTextSimilarity memories text now
    | none => memories
  (memories.take limit).map (fun mem => toIndexItem mem q.query now)

/-! ## SessionEndHook (the session-end hook source file)

The hook wraps `endSession`, `applyDecay` and `runConsolidation` in one
store transaction.  Modelled from the spec: the transaction primitives
`beginTransaction` / `commitTransaction` / `rollbackTransaction` of the
store contract (spec §4.3) act on a durable state plus an optional
transaction working state; the three steps are arbitrary fallible state
transformers, since each may throw inside the transactional block. -/

/-- Modelled from the spec: a store with explicit transaction scope.
`durable` is the committed state; `txn` the in-transaction working
state, when a transaction is open. -/
structure TxDb (σ : Type) where
  durable : σ
  txn : Option σ
deriving DecidableEq

/-- Modelled from the spec: `beginTransaction` snapshots the durable
state as the working state. -/
def beginTransaction (d : TxDb σ) : TxDb σ :=
  ⟨d.durable, some d.durable⟩

/-- Modelled from the spec: `commitTransaction` makes the working state
durable. -/
def commitTransaction (d : TxDb σ) : TxDb σ :=
  ⟨d.txn.getD d.durable, none⟩

/-- Modelled from the spec: `rollbackTransaction` discards the working
state. -/
def rollbackTransaction (d : TxDb σ) : TxDb σ :=
  ⟨d.durable, none⟩

/-- The state operations act on inside an open transaction. -/
def txnState (d : TxDb σ) : σ :=
  d.txn.getD d.durable

/-- The result record of `SessionEndHook.process`. -/
structure SessionEndResult where
  promoted : Nat
  decayed : Nat
  cleaned : Nat
deriving DecidableEq

/-- The sequence of steps inside the transactional block of
`SessionEndHook.process`: end the session, apply decay, run
consolidation; any step may fail. -/
def sessionEndSteps (endSession : σ → Except ε σ)
    (applyDecayStep : σ → Except ε (σ × Nat))
    (runConsolidationStep : σ → Except ε (σ × ConsolidationResult))
    (s : σ) : Except ε (σ × Nat × ConsolidationResult) := do
  let s1 ← endSession s
  let (s2, decayed) ← applyDecayStep s1
  let (s3, consolidation) ← runConsolidationStep s2
  pure (s3, decayed, consolidation)

/-- `SessionEndHook.process`: begin a transaction, run the steps,
commit on success and roll back (re-raising the error) on failure;
`cleanupDecayedMemories` is the v1 stub returning 0. -/
def sessionEndProcess (endSession : σ → Except ε σ)
    (applyDecayStep : σ → Except ε (σ × Nat))
    (runConsolidationStep : σ → Except ε (σ × ConsolidationResult))
    (db : TxDb σ) : TxDb σ × Except ε SessionEndResult :=
  let db1 := beginTransaction db
  match sessionEndSteps endSession applyDecayStep runConsolidationStep (txnState db1) with
  | .error e => (rollbackTransaction db1, .error e)
  | .ok (s3, decayed, consolidation) =>
    let cleaned := 0
    (commitTransaction { db1 with txn := some s3 },
     .ok { promoted := consolidation.promoted.length, decayed := decayed, cleaned := cleaned })

/-! ## Spec-side definitions

These follow the wording of the natural-language specification, for
comparison against the embeddings above. -/

/-- Clamping to `[0,1]`, as the spec's `clamp01`. -/
def clamp01 (x : ℚ) : ℚ :=
  max 0 (min 1 x)

/-- Spec wording: the case-folded, whitespace-tokenized word set of a
string with words of length ≤ 2 excluded. -/
def specWordSet (s : String) : List String :=
  ((jsSplitWs (jsLower s)).filter (fun w => w.length > 2)).dedup

/-- Spec wording: Jaccard over `specWordSet`s, degrading to 0 when
either set is empty (spec edge value "similarity=0"). -/
def specJaccard (a b : String) : ℚ :=
  let A := specWordSet a
  let B := specWordSet b
  if A.length = 0 ∨ B.length = 0 then 0
  else (interSize A B : ℚ) / (unionSize A B : ℚ)

/-- The case-folded, whitespace-tokenized word set of a string with no
length exclusion. -/
def caseFoldedWordSet (s : String) : List String :=
  (jsSplitWs (jsLower s)).dedup

/-- Jaccard over unfiltered case-folded word sets. -/
def unfilteredJaccard (a b : String) : ℚ :=
  (interSize (caseFoldedWordSet a) (caseFoldedWordSet b) : ℚ) /
    (unionSize (caseFoldedWordSet a) (caseFoldedWordSet b) : ℚ)

/-- Spec wording: `normalizedFrequency = min(1, ln(frequency+1)/ln(10))`,
for an arbitrary logarithm `jsLog`. -/
def specNormalizedFrequency (jsLog : ℚ → ℚ) (frequency : ℚ) : ℚ :=
  min 1 (jsLog (frequency + 1) / jsLog 10)

/-- Spec wording: `recencyFactor = 1 − min(1, recencyHours/168)`. -/
def specRecencyFactor (recencyHours : ℚ) : ℚ :=
  1 - min 1 (recencyHours / 168)

/-- Spec wording: `strength = clamp01(Σ weight_i · feature_i)` over the
seven features, frequency log-saturated and recency linear. -/
def specStrength (jsLog : ℚ → ℚ) (w : ScoringWeights) (f : MemoryFeatureVector) : ℚ :=
  clamp01 (w.recency * specRecencyFactor f.recency +
    w.frequency * specNormalizedFrequency jsLog f.frequency +
    w.importance * f.importance +
    w.utility * f.utility +
    w.novelty * f.novelty +
    w.confidence * f.confidence +
    w.interference * f.interference)

/-- Spec wording: the query keywords — query words of length > 2. -/
def specQueryKeywords (query : String) : List String :=
  (jsSplitWs (jsLower query)).filter (fun w => w.length > 2)

/-- Spec wording:
`textSimilarity = 0.5·jaccard(summary,query) + 0.5·(keywordHits / queryKeywordCount)`,
keywords matched as substrings of the summary (`keywordHits/0 = 0`,
matching the code's guard and Lean's division by zero). -/
def specTextSimilarity (summary query : String) : ℚ :=
  let keywords := specQueryKeywords query
  let keywordHits := (keywords.filter (fun kw => strContains (jsLower summary) kw)).length
  (1/2) * specJaccard summary query + (1/2) * ((keywordHits : ℚ) / (keywords.length : ℚ))

/-- Spec wording: `tagBonus = 0.15` per tag matching any query keyword
as substring. -/
def specTagBonus (memory : MemoryUnit) (query : String) : ℚ :=
  (15/100) * ((memory.tags.filter
    (fun tag => (specQueryKeywords query).any (fun kw => strContains (jsLower tag) kw))).length : ℚ)

/-- Spec wording: `recencyBonus = max(0, 0.05 − ageHours/2000)`. -/
def specRecencyBonus (ageHours : ℚ) : ℚ :=
  max 0 (5/100 - ageHours / 2000)

/-- Spec wording: the relevance formula before clamping,
`textSimilarity·2.0·(0.5 + strength·0.5) + tagBonus + recencyBonus`. -/
def specRelevanceRaw (memory : MemoryUnit) (query : String) (now : ℚ) : ℚ :=
  let ageHours := (now - memory.createdAt) / (1000 * 60 * 60)
  specTextSimilarity memory.summary query * 2 * (1/2 + memory.strength * (1/2)) +
    specTagBonus memory query + specRecencyBonus ageHours

/-- Spec wording:
`relevance = clamp01(textSimilarity·2.0·(0.5 + strength·0.5) + tagBonus + recencyBonus)`. -/
def specRelevance (memory : MemoryUnit) (query : String) (now : ℚ) : ℚ :=
  clamp01 (specRelevanceRaw memory query now)

/-! ## Analysis definitions

Named forms used in theorem statements: the per-unit action of one
consolidation pass, the store-level action of one consolidation
iteration, and the id-freshness invariant of the modelled store. -/

/-- What one `runConsolidation` pass does to a single unit: stm units
are promoted, marked `decayed`, or left alone; ltm units are untouched. -/
def consolidateUnit (cfg : PsychMemConfig) (m : MemoryUnit) : MemoryUnit :=
  if m.store = .stm then
    if shouldPromoteToLtm cfg m then { m with store := .ltm }
    else if m.strength < 1/10 then { m with status := .decayed }
    else m
  else m

/-- The store-level effect of one iteration of the consolidation loop. -/
def consolidateStepDb (cfg : PsychMemConfig) (db : Db) (mem : MemoryUnit) : Db :=
  if shouldPromoteToLtm cfg mem then promoteToLtm db mem.id
  else if mem.strength < 1/10 then updateMemoryStatus db mem.id .decayed
  else db

/-- The effect of the consolidation iteration for `mem` on one stored
unit `u` (only the unit with `mem`'s id is touched). -/
def consolidateUpd (cfg : PsychMemConfig) (mem u : MemoryUnit) : MemoryUnit :=
  if shouldPromoteToLtm cfg mem then (if u.id = mem.id then { u with store := .ltm } else u)
  else if mem.strength < 1/10 then (if u.id = mem.id then { u with status := .decayed } else u)
  else u

/-- Every stored unit's id is below the store's id counter — the
invariant `createMemory` maintains, guaranteeing fresh ids. -/
def freshIds (db : Db) : Prop :=
  ∀ u ∈ db.mems, u.id < db.nextId

/-! ## Concrete scenario instances -/

/-- Scenario unit A: weak but relevant to the query
"authentication bug". -/
def unitAuthBug : MemoryUnit :=
  { id := 1, store := .ltm, classification := .bugfix,
    summary := "Fixed authentication bug in login flow", status := .active,
    strength := 2/5, importance := 1/2, utility := 1/2, novelty := 1/2,
    confidence := 1/2, interference := 0, frequency := 1, tags := [],
    projectScope := none, sourceEventIds := [], createdAt := 0 }

/-- Scenario unit B: strong but sharing no words with the query. -/
def unitUnrelated : MemoryUnit :=
  { id := 2, store := .ltm, classification := .decision,
    summary := "Refactored database schema migration", status := .active,
    strength := 9/10, importance := 1/2, utility := 1/2, novelty := 1/2,
    confidence := 1/2, interference := 0, frequency := 1, tags := [],
    projectScope := none, sourceEventIds := [], createdAt := 0 }

/-- A concrete configuration for the scenarios
(`stmToLtmStrengthThreshold = 0.3`, no auto-promoted classifications). -/
def cfgScenario : PsychMemConfig :=
  { scoringWeights := ⟨1/4, 1/5, 1/5, 3/20, 1/10, 1/10, -(1/10)⟩,
    autoPromoteToLtm := [], stmToLtmStrengthThreshold := 3/10,
    stmToLtmFrequencyThreshold := 5, defaultRetrievalLimit := 10 }

/-- The retrieval-scenario pool: units A and B. -/
def dbRetrievalScenario : Db :=
  { mems := [unitAuthBug, unitUnrelated], nextId := 3, defaultStrength := 1/2, now := 0 }

/-- A candidate used twice in one intake call. -/
def candAlphaBetaGamma : MemoryCandidate :=
  { classification := .bugfix, summary := "alpha beta gamma", sourceEventIds := [],
    preliminaryImportance := 1/2, confidence := 1/2, importanceSignals := [] }

/-- An empty store. -/
def dbEmptyScenario : Db :=
  { mems := [], nextId := 1, defaultStrength := 1/2, now := 0 }

/-- A stored, non-pinned unit targeted by reconsolidation. -/
def unitAlphaBeta : MemoryUnit :=
  { id := 1, store := .ltm, classification := .learning,
    summary := "alpha beta", status := .active,
    strength := 1/2, importance := 1/2, utility := 1/2, novelty := 1/2,
    confidence := 1/2, interference := 0, frequency := 1, tags := [],
    projectScope := none, sourceEventIds := [], createdAt := 0 }

/-- The reconsolidation-scenario store: just `unitAlphaBeta`. -/
def dbReconsolidation : Db :=
  { mems := [unitAlphaBeta], nextId := 2, defaultStrength := 1/2, now := 0 }

/-- A weak stm unit (strength 0.05) for the consolidation scenario. -/
def unitWeakStm : MemoryUnit :=
  { id := 1, store := .stm, classification := .bugfix,
    summary := "weak memory", status := .active,
    strength := 1/20, importance := 1/2, utility := 1/2, novelty := 1/2,
    confidence := 1/2, interference := 0, frequency := 1, tags := [],
    projectScope := none, sourceEventIds := [], createdAt := 0 }

/-- A strong stm unit (strength 0.5) for the consolidation scenario. -/
def unitStrongStm : MemoryUnit :=
  { id := 2, store := .stm, classification := .bugfix,
    summary := "strong memory", status := .active,
    strength := 1/2, importance := 1/2, utility := 1/2, novelty := 1/2,
    confidence := 1/2, interference := 0, frequency := 1, tags := [],
    projectScope := none, sourceEventIds := [], createdAt := 0 }

/-- The consolidation-scenario store: the weak and the strong stm unit. -/
def dbConsolidationScenario : Db :=
  { mems := [unitWeakStm, unitStrongStm], nextId := 3, defaultStrength := 1/2, now := 0 }

/-! ## Helper lemmas -/

theorem min_one_eq_clamp01 {x : ℚ} (hx : 0 ≤ x) : min 1 x = clamp01 x := by
  unfold clamp01
  exact (max_eq_right (le_min zero_le_one hx)).symm

theorem jaccardSimilarity_nonneg (a b : String) : 0 ≤ jaccardSimilarity a b := by
  simp only [jaccardSimilarity]
  split
  · exact le_refl 0
  · exact div_nonneg (Nat.cast_nonneg _) (Nat.cast_nonneg _)

theorem keyword_div_guard (h l : Nat) :
    (if 0 < l then (h : ℚ) / (l : ℚ) else 0) = (h : ℚ) / (l : ℚ) := by
  rcases Nat.eq_zero_or_pos l with hl | hl
  · subst hl
    simp
  · rw [if_pos hl]

theorem relevanceScoreRaw_eq_spec (m : MemoryUnit) (q : String) (now : ℚ) :
    relevanceScoreRaw m q now = specRelevanceRaw m q now := by
  simp only [relevanceScoreRaw, specRelevanceRaw, specTextSimilarity, specTagBonus,
    specRecencyBonus, specQueryKeywords, specJaccard, specWordSet, jaccardSimilarity,
    keyword_div_guard]
  ring

theorem relevanceScoreRaw_nonneg (m : MemoryUnit) (q : String) (now : ℚ)
    (hs : 0 ≤ m.strength) : 0 ≤ relevanceScoreRaw m q now := by
  simp only [relevanceScoreRaw]
  refine add_nonneg (add_nonneg ?_ ?_) (le_max_left _ _)
  · refine mul_nonneg (mul_nonneg ?_ (by norm_num)) (by linarith)
    refine add_nonneg (mul_nonneg (jaccardSimilarity_nonneg _ _) (by norm_num))
      (mul_nonneg ?_ (by norm_num))
    split
    · exact div_nonneg (Nat.cast_nonneg _) (Nat.cast_nonneg _)
    · exact le_refl 0
  · exact mul_nonneg (Nat.cast_nonneg _) (by norm_num)

/-! ## Claim theorems -/

/-- C5: for every feature vector and weight set (and any logarithm
function standing for `Math.log`), the strength score equals clamp01 of
the weighted sum over the seven features, with
`normalizedFrequency = min(1, log(frequency+1)/log(10))` and
`recencyFactor = 1 − min(1, recencyHours/168)`, the remaining five
features entering unchanged. -/
theorem C5_strength_is_clamped_weighted_sum (jsLog : ℚ → ℚ) (w : ScoringWeights)
    (f : MemoryFeatureVector) : calculateStrength jsLog w f = specStrength jsLog w f := rfl

/-- C6: for every memory unit with in-range strength and non-empty text
query, the relevance score used by `retrieveIndex` equals
`clamp01(textSimilarity·2.0·(0.5 + strength·0.5) + tagBonus + recencyBonus)`
with the spec's textSimilarity, tagBonus and recencyBonus. -/
theorem C6_relevance_formula (m : MemoryUnit) (q : String) (now : ℚ)
    (_hq : q ≠ "") (hs : 0 ≤ m.strength) :
    calculateRelevance m q now = specRelevance m q now := by
  unfold calculateRelevance specRelevance
  rw [relevanceScoreRaw_eq_spec,
    min_one_eq_clamp01 ((relevanceScoreRaw_eq_spec m q now) ▸ relevanceScoreRaw_nonneg m q now hs)]

/-- C9: every scalar score produced by the core — strength from
`calculateStrength`, relevance from `calculateRelevance` (for units
whose stored strength satisfies the data-model invariant `0 ≤ strength`),
and the clamped utility computed by `updateUtility` — lies in [0,1]. -/
theorem C9_scores_in_unit_interval :
    (∀ (jsLog : ℚ → ℚ) (w : ScoringWeights) (f : MemoryFeatureVector),
      0 ≤ calculateStrength jsLog w f ∧ calculateStrength jsLog w f ≤ 1) ∧
    (∀ (m : MemoryUnit) (q : String) (now : ℚ), 0 ≤ m.strength →
      0 ≤ calculateRelevance m q now ∧ calculateRelevance m q now ≤ 1) ∧
    (∀ (u : ℚ) (wasUsed : Bool),
      0 ≤ updatedUtilityValue u wasUsed ∧ updatedUtilityValue u wasUsed ≤ 1) := by
  refine ⟨fun jsLog w f => ⟨?_, ?_⟩, fun m q now hs => ⟨?_, ?_⟩, fun u b => ⟨?_, ?_⟩⟩
  · simp only [calculateStrength]
    exact le_max_left _ _
  · simp only [calculateStrength]
    exact max_le zero_le_one (min_le_left _ _)
  · exact le_min zero_le_one (relevanceScoreRaw_nonneg m q now hs)
  · exact min_le_left _ _
  · simp only [updatedUtilityValue]
    exact le_max_left _ _
  · simp only [updatedUtilityValue]
    exact max_le zero_le_one (min_le_left _ _)

section
attribute [local semireducible] Rat.add Rat.mul Rat.inv Rat.sub

/-- Witness for C6 at a concrete unit and query. -/
theorem C6_relevance_formula_witness :
    calculateRelevance unitAuthBug "authentication bug" 0 =
      specRelevance unitAuthBug "authentication bug" 0 :=
  C6_relevance_formula unitAuthBug "authentication bug" 0 (by decide) (by decide)

/-- Witness for C9 at a concrete unit and query. -/
theorem C9_scores_in_unit_interval_witness :
    0 ≤ calculateRelevance unitUnrelated "authentication bug" 0 ∧
      calculateRelevance unitUnrelated "authentication bug" 0 ≤ 1 :=
  C9_scores_in_unit_interval.2.1 unitUnrelated "authentication bug" 0 (by decide)

/-- C1 (code bug): on the conflict path (`similarity < 0.3`, here with
evidence sharing zero words with the summary) `reconsolidate` reports
`conflict` and the 0.8-factor confidence, but writes nothing to the
store — the computed `updatedSummary` is dead and the stored confidence
0.5 and summary are unchanged, contradicting the function's own
"update the memory" comments and its `updated: true` return value. -/
theorem C1_reconsolidate_conflict_writes_nothing :
    (reconsolidate dbReconsolidation 1 "gamma delta" (1/2)).1.conflict = some true ∧
    (reconsolidate dbReconsolidation 1 "gamma delta" (1/2)).1.newConfidence = some (2/5) ∧
    (reconsolidate dbReconsolidation 1 "gamma delta" (1/2)).2 = dbReconsolidation ∧
    (getMemory (reconsolidate dbReconsolidation 1 "gamma delta" (1/2)).2 1).map
      (fun m => (m.confidence, m.summary)) = some (1/2, "alpha beta") := by
  decide

/-- Counterexample for C8: the similarity used by novelty, interference
and reconsolidation (`calculateTextSimilarity`) does not exclude words
of length ≤ 2 — on the two-character word "to" it returns 1 while a
Jaccard over short-word-excluded sets returns 0. -/
theorem C8_counterexample_short_words_kept :
    calculateTextSimilarity "to" "to" = 1 ∧ specJaccard "to" "to" = 0 := by
  decide

/-- C7: with pool {A = weak-but-relevant, B = strong-but-irrelevant},
`retrieveIndex` for "authentication bug" with limit 5 ranks A (id 1)
above B (id 2) although A's strength is lower. -/
theorem C7_weak_relevant_outranks_strong_irrelevant :
    (retrieveIndex cfgScenario dbRetrievalScenario
        { query := some "authentication bug", limit := some 5 } 0).map (·.id) = [1, 2] ∧
    unitAuthBug.strength < unitUnrelated.strength := by
  decide

/-- Counterexample for C2: processing the same candidate twice in one
call gives the second copy novelty 0 (it sees the unit created for the
first copy), while processing it alone on the same initial store gives
novelty 1.  The logarithm argument is irrelevant here: `Math.log` only
feeds the discarded intake strength on this path. -/
theorem C2_counterexample_later_candidate_sees_earlier :
    ((processCandidates (fun _ => 0) cfgScenario none dbEmptyScenario
        [candAlphaBetaGamma, candAlphaBetaGamma]).1.map (·.novelty) = [1, 0]) ∧
    ((processCandidates (fun _ => 0) cfgScenario none dbEmptyScenario
        [candAlphaBetaGamma]).1.map (·.novelty) = [1]) := by
  decide

end

/-- C8 (amended): the retrieval-layer Jaccard is computed over
case-folded, whitespace-tokenized word sets excluding words of length
≤ 2 (with a zero guard for empty sets), while the core similarity used
by novelty, interference and reconsolidation is computed over
case-folded, whitespace-tokenized word sets with no length exclusion. -/
theorem C8_amended_jaccard_tokenization :
    (∀ a b : String, jaccardSimilarity (jsLower a) (jsLower b) = specJaccard a b) ∧
    (∀ a b : String, calculateTextSimilarity a b = unfilteredJaccard a b) :=
  ⟨fun _ _ => rfl, fun _ _ => rfl⟩

/-- C3: in `SessionEndHook.process`, the steps inside the transactional
block (end-session, decay, consolidation) commit together or not at
all: if the step sequence fails, the durable store state is exactly the
pre-call state and the error propagates; if it succeeds, the durable
state is the state after both decay and consolidation, and the result
reports the consolidation's promotions and the decay count. -/
theorem C3_session_end_decay_consolidation_atomic {σ ε : Type}
    (endSession : σ → Except ε σ)
    (applyDecayStep : σ → Except ε (σ × Nat))
    (runConsolidationStep : σ → Except ε (σ × ConsolidationResult))
    (db : TxDb σ) :
    (∀ e : ε,
      sessionEndSteps endSession applyDecayStep runConsolidationStep db.durable = .error e →
      sessionEndProcess endSession applyDecayStep runConsolidationStep db =
        (⟨db.durable, none⟩, .error e)) ∧
    (∀ (s3 : σ) (d : Nat) (c : ConsolidationResult),
      sessionEndSteps endSession applyDecayStep runConsolidationStep db.durable = .ok (s3, d, c) →
      sessionEndProcess endSession applyDecayStep runConsolidationStep db =
        (⟨s3, none⟩, .ok ⟨c.promoted.length, d, 0⟩)) := by
  constructor
  · intro e he
    simp only [sessionEndProcess, txnState, beginTransaction, rollbackTransaction, Option.getD]
    rw [he]
  · intro s3 d c hok
    simp only [sessionEndProcess, txnState, beginTransaction, commitTransaction, Option.getD]
    rw [hok]

/-- Witness for C3: a failing decay step rolls the durable state back
to 7 and propagates the error; a fully successful run commits the state
after both steps. -/
theorem C3_session_end_decay_consolidation_atomic_witness :
    (sessionEndProcess (fun s : Nat => (Except.ok s : Except String Nat))
        (fun _ => .error "decay failed") (fun s => .ok (s + 2, ⟨[], [], []⟩)) ⟨7, none⟩ =
      (⟨7, none⟩, .error "decay failed")) ∧
    (sessionEndProcess (fun s : Nat => (Except.ok s : Except String Nat))
        (fun s => .ok (s + 1, 3)) (fun s => .ok (s + 2, ⟨[1], [], []⟩)) ⟨7, none⟩ =
      (⟨10, none⟩, .ok ⟨1, 3, 0⟩)) :=
  ⟨(C3_session_end_decay_consolidation_atomic _ _ _ _).1 "decay failed" rfl,
   (C3_session_end_decay_consolidation_atomic _ _ _ _).2 10 3 ⟨[1], [], []⟩ rfl⟩

/-- Intake runs candidate lists sequentially: processing `cs1 ++ cs2`
equals processing `cs1` and then processing `cs2` on the store `cs1`
left behind. -/
theorem processCandidates_append (jsLog : ℚ → ℚ) (cfg : PsychMemConfig)
    (scope : Option String) (db : Db) (cs1 cs2 : List MemoryCandidate) :
    processCandidates jsLog cfg scope db (cs1 ++ cs2) =
      ((processCandidates jsLog cfg scope db cs1).1 ++
          (processCandidates jsLog cfg scope
            (processCandidates jsLog cfg scope db cs1).2 cs2).1,
        (processCandidates jsLog cfg scope
          (processCandidates jsLog cfg scope db cs1).2 cs2).2) := by
  induction cs1 generalizing db with
  | nil => simp [processCandidates]
  | cons c cs ih =>
    simp only [List.cons_append, processCandidates, List.append_eq]
    rw [ih]

/-- C2 (amended): candidates within one call do see each other's
output — each candidate is scored against the live store, so processing
`[c1, c2]` gives `c2` the outputs it would get when processed alone on
the store obtained after processing `[c1]`, not on the initial store. -/
theorem C2_amended_intake_is_sequential (jsLog : ℚ → ℚ) (cfg : PsychMemConfig)
    (scope : Option String) (db : Db) (c1 c2 : MemoryCandidate) :
    processCandidates jsLog cfg scope db [c1, c2] =
      ((processCandidates jsLog cfg scope db [c1]).1 ++
          (processCandidates jsLog cfg scope
            (processCandidates jsLog cfg scope db [c1]).2 [c2]).1,
        (processCandidates jsLog cfg scope
          (processCandidates jsLog cfg scope db [c1]).2 [c2]).2) :=
  processCandidates_append jsLog cfg scope db [c1] [c2]

/-- The stm units that `runConsolidation` marks `decayed`: not promoted
and strength below 0.1. -/
def consolidateDecays (cfg : PsychMemConfig) (m : MemoryUnit) : Bool :=
  !shouldPromoteToLtm cfg m && decide (m.strength < 1/10)

/-- The stm units `runConsolidation` leaves unchanged: not promoted and
strength at least 0.1. -/
def consolidateKeeps (cfg : PsychMemConfig) (m : MemoryUnit) : Bool :=
  !shouldPromoteToLtm cfg m && !decide (m.strength < 1/10)

theorem consolidate_foldl_spec (cfg : PsychMemConfig) (l : List MemoryUnit)
    (res : ConsolidationResult) (d : Db) :
    (l.foldl (consolidateStep cfg) (res, d)).1.promoted =
        res.promoted ++ (l.filter (fun m => shouldPromoteToLtm cfg m)).map (·.id) ∧
    (l.foldl (consolidateStep cfg) (res, d)).1.decayed =
        res.decayed ++ (l.filter (consolidateDecays cfg)).map (·.id) ∧
    (l.foldl (consolidateStep cfg) (res, d)).1.unchanged =
        res.unchanged ++ (l.filter (consolidateKeeps cfg)).map (·.id) ∧
    (l.foldl (consolidateStep cfg) (res, d)).2 = l.foldl (consolidateStepDb cfg) d := by
  induction l generalizing res d with
  | nil => simp
  | cons m l ih =>
    simp only [List.foldl_cons, List.filter_cons, consolidateDecays, consolidateKeeps]
    by_cases h1 : shouldPromoteToLtm cfg m
    · have hstep : consolidateStep cfg (res, d) m =
          ({ res with promoted := res.promoted ++ [m.id] }, promoteToLtm d m.id) := by
        simp [consolidateStep, h1]
      have hdb : consolidateStepDb cfg d m = promoteToLtm d m.id := by
        simp [consolidateStepDb, h1]
      rw [hstep, hdb]
      obtain ⟨p, dcy, u, dbq⟩ := ih { res with promoted := res.promoted ++ [m.id] } (promoteToLtm d m.id)
      refine ⟨?_, ?_, ?_, dbq⟩
      · simpa [h1, List.append_assoc] using p
      · simpa [h1] using dcy
      · simpa [h1] using u
    · by_cases h2 : m.strength < 1/10
      all_goals rw [one_div] at h2
      · have hstep : consolidateStep cfg (res, d) m =
            ({ res with decayed := res.decayed ++ [m.id] }, updateMemoryStatus d m.id .decayed) := by
          simp [consolidateStep, h1, h2]
        have hdb : consolidateStepDb cfg d m = updateMemoryStatus d m.id .decayed := by
          simp [consolidateStepDb, h1, h2]
        rw [hstep, hdb]
        obtain ⟨p, dcy, u, dbq⟩ :=
          ih { res with decayed := res.decayed ++ [m.id] } (updateMemoryStatus d m.id .decayed)
        refine ⟨?_, ?_, ?_, dbq⟩
        · simpa [h1] using p
        · simpa [consolidateDecays, h1, h2, List.append_assoc] using dcy
        · simpa [consolidateKeeps, h1, h2] using u
      · have hstep : consolidateStep cfg (res, d) m =
            ({ res with unchanged := res.unchanged ++ [m.id] }, d) := by
          simp [consolidateStep, h1, h2]
        have hdb : consolidateStepDb cfg d m = d := by
          simp [consolidateStepDb, h1, h2]
        rw [hstep, hdb]
        obtain ⟨p, dcy, u, dbq⟩ := ih { res with unchanged := res.unchanged ++ [m.id] } d
        refine ⟨?_, ?_, ?_, dbq⟩
        · simpa [h1] using p
        · simpa [consolidateDecays, h1, h2] using dcy
        · simpa [consolidateKeeps, h1, h2, List.append_assoc] using u

theorem consolidateUpd_id (cfg : PsychMemConfig) (m u : MemoryUnit) :
    (consolidateUpd cfg m u).id = u.id := by
  simp only [consolidateUpd]
  split_ifs <;> rfl

theorem consolidateUpd_of_ne (cfg : PsychMemConfig) (m u : MemoryUnit)
    (h : u.id ≠ m.id) : consolidateUpd cfg m u = u := by
  simp only [consolidateUpd]
  split_ifs <;> rfl

theorem consolidateStepDb_mems (cfg : PsychMemConfig) (d : Db) (m : MemoryUnit) :
    (consolidateStepDb cfg d m).mems = d.mems.map (consolidateUpd cfg m) := by
  simp only [consolidateStepDb]
  split_ifs with h1 h2
  · simp only [promoteToLtm]
    congr 1
    funext u
    simp only [consolidateUpd]
    rw [if_pos h1]
  · simp only [updateMemoryStatus]
    congr 1
    funext u
    simp only [consolidateUpd]
    rw [if_neg h1, if_pos h2]
  · have hupd : consolidateUpd cfg m = fun u => u := by
      funext u
      simp only [consolidateUpd]
      rw [if_neg h1, if_neg h2]
    rw [hupd]
    exact (List.map_id' d.mems).symm

theorem foldl_consolidateStepDb_mems (cfg : PsychMemConfig) (l : List MemoryUnit) (d : Db) :
    (l.foldl (consolidateStepDb cfg) d).mems =
      l.foldl (fun ms m => ms.map (consolidateUpd cfg m)) d.mems := by
  induction l generalizing d with
  | nil => rfl
  | cons m l ih =>
    simp only [List.foldl_cons]
    rw [ih, consolidateStepDb_mems]

theorem foldl_map_apply (f : MemoryUnit → MemoryUnit → MemoryUnit)
    (l : List MemoryUnit) (xs : List MemoryUnit) :
    l.foldl (fun ms m => ms.map (f m)) xs = xs.map (fun u => l.foldl (fun v m => f m v) u) := by
  induction l generalizing xs with
  | nil => simp
  | cons m l ih =>
    simp only [List.foldl_cons]
    rw [ih, List.map_map]
    rfl

theorem foldl_consolidateUpd_of_absent (cfg : PsychMemConfig) (l : List MemoryUnit)
    (u : MemoryUnit) (h : ∀ m ∈ l, u.id ≠ m.id) :
    l.foldl (fun v m => consolidateUpd cfg m v) u = u := by
  induction l with
  | nil => rfl
  | cons m l ih =>
    simp only [List.foldl_cons]
    rw [consolidateUpd_of_ne cfg m u (h m (by simp))]
    exact ih fun m' hm' => h m' (by simp [hm'])

theorem consolidate_pointwise (cfg : PsychMemConfig) (db : Db)
    (hnd : (db.mems.map (·.id)).Nodup) (u : MemoryUnit) (hu : u ∈ db.mems) :
    (db.mems.filter (fun m => m.store = .stm)).foldl (fun v m => consolidateUpd cfg m v) u =
      consolidateUnit cfg u := by
  have hinj : ∀ m ∈ db.mems, m.id = u.id → m = u := fun m hm hid =>
    List.inj_on_of_nodup_map hnd hm hu hid
  by_cases hstm : u.store = .stm
  · have humem : u ∈ db.mems.filter (fun m => m.store = .stm) :=
      List.mem_filter.mpr ⟨hu, by simp [hstm]⟩
    obtain ⟨s, t, hst⟩ := List.append_of_mem humem
    have hsub : (db.mems.filter (fun m => m.store = .stm)).Sublist db.mems :=
      List.filter_sublist _
    have hndl : ((db.mems.filter (fun m => m.store = .stm)).map (·.id)).Nodup :=
      (hsub.map (·.id)).nodup hnd
    rw [hst] at hndl
    simp only [List.map_append, List.map_cons] at hndl
    have hns : u.id ∉ s.map (·.id) ∧ u.id ∉ t.map (·.id) := by
      rw [List.nodup_append] at hndl
      refine ⟨fun hmem => ?_, (List.nodup_cons.mp hndl.2.1).1⟩
      exact hndl.2.2 hmem (by simp)
    rw [hst, List.foldl_append, List.foldl_cons]
    rw [foldl_consolidateUpd_of_absent cfg s u
      (fun m hm heq => hns.1 (heq ▸ List.mem_map_of_mem (·.id) hm))]
    have hself : consolidateUpd cfg u u =
        (if shouldPromoteToLtm cfg u then { u with store := .ltm }
         else if u.strength < 1/10 then { u with status := .decayed } else u) := by
      simp only [consolidateUpd]
      split_ifs <;> rfl
    rw [hself]
    have hidpres : (if shouldPromoteToLtm cfg u then { u with store := Store.ltm }
        else if u.strength < 1/10 then { u with status := Status.decayed } else u).id = u.id := by
      split_ifs <;> rfl
    rw [foldl_consolidateUpd_of_absent cfg t _
      (fun m hm hteq => hns.2 ((hidpres ▸ hteq) ▸ List.mem_map_of_mem (·.id) hm))]
    simp only [consolidateUnit, if_pos hstm]
  · have hnotin : ∀ m ∈ db.mems.filter (fun m => m.store = .stm), u.id ≠ m.id := by
      intro m hm heq
      have hmm := List.mem_filter.mp hm
      have : m = u := hinj m hmm.1 heq.symm
      subst this
      simp only [decide_eq_true_eq] at hmm
      exact hstm hmm.2
    rw [foldl_consolidateUpd_of_absent cfg _ u hnotin]
    simp only [consolidateUnit, if_neg hstm]

/-- C4: `runConsolidation` promotes a scanned stm unit iff its
classification is auto-promoted, or its strength reaches
`stmToLtmStrengthThreshold`, or its frequency reaches
`stmToLtmFrequencyThreshold` (that is `shouldPromoteToLtm`); otherwise
it marks units with strength < 0.1 `decayed` and leaves the rest
unchanged — each scanned unit's id lands in exactly the corresponding
result list, and the store is mapped unit-by-unit with no deletion. -/
theorem C4_runConsolidation_characterization (cfg : PsychMemConfig) (db : Db)
    (hnd : (db.mems.map (·.id)).Nodup) :
    (runConsolidation cfg db).1.promoted =
      ((getMemoriesByStore db .stm).filter (fun m => shouldPromoteToLtm cfg m)).map (·.id) ∧
    (runConsolidation cfg db).1.decayed =
      ((getMemoriesByStore db .stm).filter (consolidateDecays cfg)).map (·.id) ∧
    (runConsolidation cfg db).1.unchanged =
      ((getMemoriesByStore db .stm).filter (consolidateKeeps cfg)).map (·.id) ∧
    (runConsolidation cfg db).2.mems = db.mems.map (consolidateUnit cfg) := by
  obtain ⟨hp, hd, hu, hdb⟩ :=
    consolidate_foldl_spec cfg (getMemoriesByStore db .stm) ⟨[], [], []⟩ db
  refine ⟨?_, ?_, ?_, ?_⟩
  · simpa only [runConsolidation, List.nil_append] using hp
  · simpa only [runConsolidation, List.nil_append] using hd
  · simpa only [runConsolidation, List.nil_append] using hu
  · simp only [runConsolidation]
    rw [hdb, foldl_consolidateStepDb_mems, foldl_map_apply]
    refine List.map_congr_left fun u hu => ?_
    simpa only [getMemoriesByStore] using consolidate_pointwise cfg db hnd u hu

section
attribute [local semireducible] Rat.add Rat.mul Rat.inv Rat.sub

/-- Witness for C4 on the spec's scenario: with
`stmToLtmStrengthThreshold = 0.3`, the stm unit of strength 0.05 is
marked decayed and the one of strength 0.5 is promoted. -/
theorem C4_runConsolidation_characterization_witness :
    (runConsolidation cfgScenario dbConsolidationScenario).1.promoted = [2] ∧
    (runConsolidation cfgScenario dbConsolidationScenario).1.decayed = [1] ∧
    (runConsolidation cfgScenario dbConsolidationScenario).1.unchanged = [] ∧
    (runConsolidation cfgScenario dbConsolidationScenario).2.mems =
      dbConsolidationScenario.mems.map (consolidateUnit cfgScenario) := by
  obtain ⟨hp, hd, hu, hdb⟩ :=
    C4_runConsolidation_characterization cfgScenario dbConsolidationScenario (by decide)
  exact ⟨by rw [hp]; decide, by rw [hd]; decide, by rw [hu]; decide, hdb⟩

end

theorem intakeCreate_spec (cfg : PsychMemConfig) (scope : Option String)
    (db : Db) (c : MemoryCandidate) :
    (intakeCreate cfg scope db c).1.id = db.nextId ∧
    (intakeCreate cfg scope db c).2.mems = db.mems ++ [(intakeCreate cfg scope db c).1] ∧
    (intakeCreate cfg scope db c).2.nextId = db.nextId + 1 ∧
    (intakeCreate cfg scope db c).1.strength = db.defaultStrength :=
  ⟨rfl, rfl, rfl, rfl⟩

theorem freshIds_intakeCreate (cfg : PsychMemConfig) (scope : Option String)
    (db : Db) (c : MemoryCandidate) (h : freshIds db) :
    freshIds (intakeCreate cfg scope db c).2 := by
  intro u hu
  rw [(intakeCreate_spec cfg scope db c).2.1, List.mem_append, List.mem_singleton] at hu
  rw [(intakeCreate_spec cfg scope db c).2.2.1]
  rcases hu with hu | rfl
  · exact Nat.lt_succ_of_lt (h u hu)
  · rw [(intakeCreate_spec cfg scope db c).1]
    exact Nat.lt_succ_self _

theorem freshIds_updateMemoryStrength (db : Db) (id : Nat) (s : ℚ) (h : freshIds db) :
    freshIds (updateMemoryStrength db id s) := by
  intro u hu
  simp only [updateMemoryStrength, List.mem_map] at hu
  obtain ⟨v, hv, rfl⟩ := hu
  show (if v.id = id then { v with strength := s } else v).id < db.nextId
  have hvid : (if v.id = id then { v with strength := s } else v).id = v.id := by
    split <;> rfl
  rw [hvid]
  exact h v hv

theorem freshIds_intakeStep (jsLog : ℚ → ℚ) (cfg : PsychMemConfig) (scope : Option String)
    (db : Db) (c : MemoryCandidate) (h : freshIds db) :
    freshIds (intakeStep jsLog cfg scope db c).2 := by
  simp only [intakeStep]
  split
  · exact freshIds_updateMemoryStrength _ _ _ (freshIds_intakeCreate cfg scope db c h)
  · exact freshIds_intakeCreate cfg scope db c h

theorem mem_updateMemoryStrength_of_ne (db : Db) (id : Nat) (s : ℚ) (u : MemoryUnit)
    (hu : u ∈ db.mems) (hne : u.id ≠ id) : u ∈ (updateMemoryStrength db id s).mems := by
  simp only [updateMemoryStrength]
  refine List.mem_map.mpr ⟨u, hu, ?_⟩
  rw [if_neg hne]

theorem mem_intakeStep (jsLog : ℚ → ℚ) (cfg : PsychMemConfig) (scope : Option String)
    (db : Db) (c : MemoryCandidate) (h : freshIds db) (u : MemoryUnit) (hu : u ∈ db.mems) :
    u ∈ (intakeStep jsLog cfg scope db c).2.mems := by
  have hu1 : u ∈ (intakeCreate cfg scope db c).2.mems := by
    rw [(intakeCreate_spec cfg scope db c).2.1]
    exact List.mem_append_left _ hu
  simp only [intakeStep]
  split
  · refine mem_updateMemoryStrength_of_ne _ _ _ u hu1 ?_
    rw [(intakeCreate_spec cfg scope db c).1]
    exact Nat.ne_of_lt (h u hu)
  · exact hu1

theorem processCandidates_keeps (jsLog : ℚ → ℚ) (cfg : PsychMemConfig)
    (scope : Option String) :
    ∀ (cs : List MemoryCandidate) (db : Db), freshIds db →
      freshIds (processCandidates jsLog cfg scope db cs).2 ∧
      ∀ u ∈ db.mems, u ∈ (processCandidates jsLog cfg scope db cs).2.mems := by
  intro cs
  induction cs with
  | nil => exact fun db h => ⟨h, fun u hu => hu⟩
  | cons c cs ih =>
    intro db h
    simp only [processCandidates]
    obtain ⟨hf, hm⟩ :=
      ih (intakeStep jsLog cfg scope db c).2 (freshIds_intakeStep jsLog cfg scope db c h)
    exact ⟨hf, fun u hu => hm u (mem_intakeStep jsLog cfg scope db c h u hu)⟩

theorem intakeStep_created_mem (jsLog : ℚ → ℚ) (cfg : PsychMemConfig)
    (scope : Option String) (db : Db) (c : MemoryCandidate) :
    (detectInterference db c = 0 →
      (intakeCreate cfg scope db c).1 ∈ (intakeStep jsLog cfg scope db c).2.mems) ∧
    (0 < detectInterference db c →
      { (intakeCreate cfg scope db c).1 with
          strength := calculateStrength jsLog cfg.scoringWeights (calculateFeatures db c) *
            (1 - detectInterference db c * (2/10)) } ∈
        (intakeStep jsLog cfg scope db c).2.mems) := by
  constructor
  · intro h0
    simp only [intakeStep]
    rw [if_neg (by rw [h0]; exact lt_irrefl 0)]
    rw [(intakeCreate_spec cfg scope db c).2.1]
    exact List.mem_append_right _ (List.mem_singleton_self _)
  · intro hpos
    simp only [intakeStep]
    rw [if_pos hpos]
    simp only [updateMemoryStrength]
    refine List.mem_map.mpr ⟨(intakeCreate cfg scope db c).1, ?_, ?_⟩
    · rw [(intakeCreate_spec cfg scope db c).2.1]
      exact List.mem_append_right _ (List.mem_singleton_self _)
    · rw [if_pos rfl]

/-- C10: in a `processCandidates` call over `cs1 ++ [c] ++ cs2` on a
store with fresh ids, the unit persisted for `c` is exactly the record
`createMemory` returned — whose strength is the store-assigned default,
the intake-computed strength being discarded — when `c`'s detected
interference is 0; and exactly that record with only its strength
replaced by `strength·(1 − interference·0.2)` when interference is
positive. -/
theorem C10_interference_is_only_strength_write (jsLog : ℚ → ℚ) (cfg : PsychMemConfig)
    (scope : Option String) (db : Db) (cs1 : List MemoryCandidate) (c : MemoryCandidate)
    (cs2 : List MemoryCandidate) (hfresh : freshIds db) :
    ((intakeCreate cfg scope (processCandidates jsLog cfg scope db cs1).2 c).1.strength =
      (processCandidates jsLog cfg scope db cs1).2.defaultStrength) ∧
    (detectInterference (processCandidates jsLog cfg scope db cs1).2 c = 0 →
      (intakeCreate cfg scope (processCandidates jsLog cfg scope db cs1).2 c).1 ∈
        (processCandidates jsLog cfg scope db (cs1 ++ c :: cs2)).2.mems) ∧
    (0 < detectInterference (processCandidates jsLog cfg scope db cs1).2 c →
      { (intakeCreate cfg scope (processCandidates jsLog cfg scope db cs1).2 c).1 with
          strength := calculateStrength jsLog cfg.scoringWeights
              (calculateFeatures (processCandidates jsLog cfg scope db cs1).2 c) *
            (1 - detectInterference (processCandidates jsLog cfg scope db cs1).2 c * (2/10)) } ∈
        (processCandidates jsLog cfg scope db (cs1 ++ c :: cs2)).2.mems) := by
  have hA : freshIds (processCandidates jsLog cfg scope db cs1).2 :=
    (processCandidates_keeps jsLog cfg scope cs1 db hfresh).1
  have hfinal : (processCandidates jsLog cfg scope db (cs1 ++ c :: cs2)).2 =
      (processCandidates jsLog cfg scope
        (intakeStep jsLog cfg scope (processCandidates jsLog cfg scope db cs1).2 c).2 cs2).2 := by
    rw [processCandidates_append]
    simp only [processCandidates]
  refine ⟨rfl, fun h0 => ?_, fun hpos => ?_⟩
  · rw [hfinal]
    exact (processCandidates_keeps jsLog cfg scope cs2 _
        (freshIds_intakeStep jsLog cfg scope _ c hA)).2 _
      ((intakeStep_created_mem jsLog cfg scope _ c).1 h0)
  · rw [hfinal]
    exact (processCandidates_keeps jsLog cfg scope cs2 _
        (freshIds_intakeStep jsLog cfg scope _ c hA)).2 _
      ((intakeStep_created_mem jsLog cfg scope _ c).2 hpos)

section
attribute [local semireducible] Rat.add Rat.mul Rat.inv Rat.sub

/-- Witness for C10: on an empty store the single candidate has
interference 0, and the persisted unit is exactly the `createMemory`
record with the store-assigned default strength. -/
theorem C10_interference_is_only_strength_write_witness :
    (intakeCreate cfgScenario none dbEmptyScenario candAlphaBetaGamma).1 ∈
      (processCandidates (fun _ => 0) cfgScenario none dbEmptyScenario
        ([] ++ candAlphaBetaGamma :: [])).2.mems :=
  (C10_interference_is_only_strength_write (fun _ => 0) cfgScenario none dbEmptyScenario
    [] candAlphaBetaGamma [] (fun u hu => absurd hu (List.not_mem_nil u))).2.1 (by decide)

end
